import Mathlib

/-!
# Shallow embedding of SoundHub (audio editing + text-to-audio retrieval)

This file embeds the two source modules of the repository:

* `soundhub/audio.py` — wrappers over the pydub `AudioSegment` type:
  `trim`, `concat`, `fade`, `mix`, `mix_two`, …
* `soundhub/retrieve.py` — `retrieve_audio`, a linear scan over a folder of
  `.wav` files scored against a text query by an external CLAP model,
  followed by a stable descending sort and truncation to `top_n`.

Modelling choices, all taken from the source:

* An `AudioSegment` is modelled as a `Clip := List Int`: the list of samples,
  indexed by millisecond, so `len(audio)` (pydub's duration in ms) is
  `Clip.length`.  Slicing `audio[start:end]` is Python slice semantics on
  that list (non-negative indices, as in every call site of the repository).
* pydub's `AudioSegment.__add__` on two segments is CONCATENATION (`++`),
  not sample-wise overlay; `AudioSegment.__radd__ 0` returns the segment so
  that Python's `sum` builtin concatenates a non-empty list of segments, and
  `sum([])` is the integer `0`, whose `.export` call fails.
* The filesystem is a partial map `fs : String → Option Clip`
  (`AudioSegment.from_file`); `none` means `FileNotFoundError`.
* A function that saves a file returns `Except AudioError Clip`:
  `.ok c` means the clip `c` was exported to the output path, `.error e`
  means the exception `e` was raised and nothing was written.
-/

/-- A pydub `AudioSegment`: samples indexed by millisecond; duration in
milliseconds is the list length. -/
abbrev Clip := List Int

/-- The two exception kinds raised by `soundhub/audio.py`:
`FileNotFoundError` and the generic wrapped `Exception`. -/
inductive AudioError where
  | fileNotFound
  | processing
deriving DecidableEq, Repr

/-- Python slice `xs[start:stop]` for non-negative `start`/`stop`
(every call in the repository uses non-negative millisecond offsets):
take up to `stop`, then drop `start`; `stop` past the end is clamped and
`start ≥ stop` yields the empty list. -/
def pySlice (xs : Clip) (start stop : Nat) : Clip :=
  (xs.take stop).drop start

/-- Python's builtin `sum` over a list of pydub segments: the fold starts at
the integer `0`, and `AudioSegment.__radd__ 0` returns the segment itself, so
a non-empty list folds by segment `+`, which in pydub is concatenation.
`sum([])` is the integer `0`, not a segment: calling `.export` on it fails,
so the empty case yields `none`. -/
def pydub_sum : List Clip → Option Clip
  | [] => none
  | c :: rest => some (rest.foldl (· ++ ·) c)

/-- Modelled from the spec: the external audio collaborator interface
(spec section 1) provides only `load_audio(path)` and
`export(handle, path, format)` — no volume-scaling method.  The call
`segment.set_volume(volume)` in `mix`/`mix_two` therefore fails with an
attribute lookup error, which the surrounding `except Exception` handler
re-raises as the generic processing failure. -/
def set_volume (_segment : Clip) (_volume : Rat) : Except AudioError Clip :=
  .error .processing

/-- The list comprehension
`[AudioSegment.from_file(path) for path in audio_paths]`: load every path in
order; the first missing file raises `FileNotFoundError`, modelled as
`none`. -/
def loadAll (fs : String → Option Clip) : List String → Option (List Clip)
  | [] => some []
  | p :: rest =>
    match fs p with
    | none => none
    | some c => (loadAll fs rest).map (c :: ·)

/-- The list comprehension
`[segment.set_volume(volume) for segment in audio_segments]`: the first
`set_volume` call raises (the method does not exist), so the result is a
processing error for any non-empty list. -/
def setVolumeAll (volume : Rat) : List Clip → Except AudioError (List Clip)
  | [] => .ok []
  | c :: rest =>
    match set_volume c volume with
    | .error e => .error e
    | .ok b =>
      match setVolumeAll volume rest with
      | .error e => .error e
      | .ok bs => .ok (b :: bs)

/-- `trim(audio_path, output_path, trim_length, start_time, end_time)` from
`soundhub/audio.py`: load the file; if `trim_length` is given, set
`end_time = start_time + trim_length`; if `end_time` is still `None`, use the
duration; clamp `end_time` (only) to the duration; slice and export.
Defaults in the source are `trim_length=None, start_time=0, end_time=None`. -/
def trim (fs : String → Option Clip) (audio_path : String)
    (trim_length : Option Nat) (start_time : Nat) (end_time : Option Nat) :
    Option Clip :=
  match fs audio_path with
  | none => none
  | some audio =>
    let e1 : Option Nat :=
      match trim_length with
      | some tl => some (start_time + tl)
      | none => end_time
    let e2 : Nat := e1.getD audio.length
    let e3 : Nat := min e2 audio.length
    some (pySlice audio start_time e3)

/-- `concat(audio_paths, output_path)` from `soundhub/audio.py`: load every
path, `sum` the segments (pydub concatenation), export.  A missing file or an
empty path list raises (uncaught in the source), modelled as `none`. -/
def concat (fs : String → Option Clip) (audio_paths : List String) :
    Option Clip :=
  match loadAll fs audio_paths with
  | none => none
  | some segs => pydub_sum segs

/-- `mix(audio_paths, output_path, volume=1.0)` from `soundhub/audio.py`:
load every path (a missing file raises `FileNotFoundError`); if
`volume != 1.0`, call `segment.set_volume(volume)` on each segment; `sum` the
segments (pydub `+`, i.e. concatenation) and export.  Any non-file-not-found
exception is re-raised as the generic processing error. -/
def mix (fs : String → Option Clip) (audio_paths : List String)
    (volume : Rat) : Except AudioError Clip :=
  match loadAll fs audio_paths with
  | none => .error .fileNotFound
  | some segs =>
    match (if volume = 1 then Except.ok segs
           else setVolumeAll volume segs) with
    | .error e => .error e
    | .ok segs2 =>
      match pydub_sum segs2 with
      | some mixed => .ok mixed
      | none => .error .processing

/-- `mix_two(audio_path1, audio_path2, output_path, volume=1.0)` from
`soundhub/audio.py`: load the two files; if `volume != 1.0`, call
`set_volume` on each; combine with pydub `+` (concatenation) and export. -/
def mix_two (fs : String → Option Clip) (audio_path1 audio_path2 : String)
    (volume : Rat) : Except AudioError Clip :=
  match fs audio_path1 with
  | none => .error .fileNotFound
  | some a1 =>
    match fs audio_path2 with
    | none => .error .fileNotFound
    | some a2 =>
      match (if volume = 1 then Except.ok (a1, a2)
             else
               match set_volume a1 volume with
               | .error e => .error e
               | .ok b1 =>
                 match set_volume a2 volume with
                 | .error e => .error e
                 | .ok b2 => Except.ok (b1, b2)) with
      | .error e => .error e
      | .ok (b1, b2) => .ok (b1 ++ b2)

/-!
## Retrieval (`soundhub/retrieve.py`)

`retrieve_audio(query_text, audio_folder, top_n=5)` loads a CLAP model,
lists the `.wav` files of `audio_folder`, embeds the query once, embeds each
candidate and scores it against the query embedding, sorts the
`(file, score)` pairs by score descending with Python's stable `list.sort`,
and returns the names of the first `top_n` pairs.

The CLAP model is an external collaborator; its three methods are modelled
as fallible functions (an exception from any of them propagates and aborts
the call).  Embedding vectors are opaque (`Emb := List Int`) and similarity
scores are opaque scalars (`Int`).  Alongside the result the embedding also
returns a `CallLog` recording, in order, every invocation that the call made
on the model, so that claims about the number of model invocations are
statements about the embedding.
-/

/-- An opaque embedding vector produced by the CLAP model. -/
abbrev Emb := List Int

/-- An exception raised by an external CLAP model call. -/
inductive ModelErr where
  | failure
deriving DecidableEq, Repr

/-- The external CLAP model collaborator: the three methods that
`retrieve_audio` calls.  Each may raise. -/
structure Clap where
  get_text_embeddings : String → Except ModelErr Emb
  get_audio_embeddings : String → Except ModelErr Emb
  compute_similarity : Emb → Emb → Except ModelErr Int

/-- A CLAP model built from total functions: no call ever raises. -/
def pureClap (tE : String → Emb) (aE : String → Emb)
    (simf : Emb → Emb → Int) : Clap where
  get_text_embeddings q := .ok (tE q)
  get_audio_embeddings f := .ok (aE f)
  compute_similarity a t := .ok (simf a t)

/-- The score `retrieve_audio` computes for candidate `f` under a pure
model: the similarity of the audio embedding of `f` against the text
embedding of the query. -/
def scoreOf (tE : String → Emb) (aE : String → Emb)
    (simf : Emb → Emb → Int) (query_text f : String) : Int :=
  simf (aE f) (tE query_text)

/-- Record of the model invocations made by one `retrieve_audio` call:
the queries passed to `get_text_embeddings`, the files passed to
`get_audio_embeddings` (in call order), and the number of
`compute_similarity` calls. -/
structure CallLog where
  textQueries : List String
  audioFiles : List String
  simCount : Nat
deriving DecidableEq, Repr

/-- The candidate enumeration of `retrieve_audio`:
`[os.path.join(audio_folder, f) for f in os.listdir(audio_folder) if f.endswith(".wav")]`,
where `entries` is the directory listing in discovery order. -/
def listWavFiles (audio_folder : String) (entries : List String) :
    List String :=
  (entries.filter (fun f => f.endsWith ".wav")).map
    (fun f => audio_folder ++ "/" ++ f)

/-- The scoring loop of `retrieve_audio`: for each file in order, one
`get_audio_embeddings` call then one `compute_similarity` call, appending
`(audio_file, similarity)`.  The first exception aborts the loop. Returns
the outcome together with the audio-embedding calls made (in order) and the
number of similarity calls made. -/
def scoreLoop (m : Clap) (text_embeddings : Emb) :
    List String → Except ModelErr (List (String × Int)) × List String × Nat
  | [] => (.ok [], [], 0)
  | f :: rest =>
    match m.get_audio_embeddings f with
    | .error e => (.error e, [f], 0)
    | .ok aemb =>
      match m.compute_similarity aemb text_embeddings with
      | .error e => (.error e, [f], 1)
      | .ok s =>
        match scoreLoop m text_embeddings rest with
        | (res, called, sims) =>
          (res.map (fun pairs => (f, s) :: pairs), f :: called, sims + 1)

/-- The comparison realised by `similarities.sort(key=lambda x: x[1], reverse=True)`:
score descending.  Python's sort is stable; `List.insertionSort` with this
relation is the standard stable model of it (pairs with equal score keep
their original relative order). -/
def byScoreDesc (p q : String × Int) : Prop := q.2 ≤ p.2

instance : DecidableRel byScoreDesc := fun p q => inferInstanceAs (Decidable (q.2 ≤ p.2))

instance : IsTotal (String × Int) byScoreDesc := ⟨fun p q => le_total q.2 p.2⟩

instance : IsTrans (String × Int) byScoreDesc :=
  ⟨fun _ _ _ h1 h2 => le_trans h2 h1⟩

/-- `retrieve_audio(query_text, audio_folder, top_n=5)` over a fixed list of
candidate files (the `.wav` entries of the folder, in discovery order):
embed the query once, run the scoring loop, sort by score descending
(stable), take the first `top_n` names.  Returns the result (or the
propagated exception) together with the log of model invocations. -/
def retrieve_audio (m : Clap) (query_text : String)
    (audio_files : List String) (top_n : Nat) :
    Except ModelErr (List String) × CallLog :=
  match m.get_text_embeddings query_text with
  | .error e => (.error e, ⟨[query_text], [], 0⟩)
  | .ok text_embeddings =>
    match scoreLoop m text_embeddings audio_files with
    | (.error e, called, sims) => (.error e, ⟨[query_text], called, sims⟩)
    | (.ok similarities, called, sims) =>
      let sorted := similarities.insertionSort byScoreDesc
      (.ok ((sorted.take top_n).map Prod.fst), ⟨[query_text], called, sims⟩)

/-- The scored candidate list built by the loop of `retrieve_audio` under a
pure model, before sorting. -/
def scoredPairs (tE : String → Emb) (aE : String → Emb)
    (simf : Emb → Emb → Int) (query_text : String)
    (audio_files : List String) : List (String × Int) :=
  audio_files.map (fun f => (f, scoreOf tE aE simf query_text f))

/-- A tiny concrete filesystem used to evaluate the theorems on explicit
inputs: `x.wav` is a one-millisecond clip of amplitude 5, `a.wav` a
two-millisecond clip, and every other path is missing. -/
def sampleFs : String → Option Clip := fun p =>
  if p = "x.wav" then some [5]
  else if p = "a.wav" then some [1, 2]
  else none

/-- A CLAP model whose audio-embedding call always raises, used to evaluate
the abort-on-failure theorems on an explicit input. -/
def failingClap : Clap where
  get_text_embeddings _ := .ok []
  get_audio_embeddings _ := .error .failure
  compute_similarity _ _ := .ok 0

/-- A CLAP model built from constant embeddings and a constant similarity,
used to evaluate the retrieval theorems on explicit inputs. -/
def constClap : Clap := pureClap (fun _ => []) (fun _ => []) (fun _ _ => 0)

/-!
## Helper lemmas
-/

theorem loadAll_eq_none_of_mem {fs : String → Option Clip}
    {paths : List String} {p : String} (hp : p ∈ paths)
    (hnone : fs p = none) : loadAll fs paths = none := by
  induction paths with
  | nil => cases hp
  | cons a rest ih =>
    rcases List.mem_cons.mp hp with rfl | htail
    · simp [loadAll, hnone]
    · cases h : fs a with
      | none => simp [loadAll, h]
      | some c => simp [loadAll, h, ih htail]

theorem loadAll_isSome_of_forall {fs : String → Option Clip}
    {paths : List String} (h : ∀ p ∈ paths, (fs p).isSome) :
    ∃ segs, loadAll fs paths = some segs := by
  induction paths with
  | nil => exact ⟨[], rfl⟩
  | cons a rest ih =>
    obtain ⟨c, hc⟩ := Option.isSome_iff_exists.mp (h a (List.mem_cons_self a rest))
    obtain ⟨segs, hsegs⟩ := ih (fun p hp => h p (List.mem_cons_of_mem a hp))
    exact ⟨c :: segs, by simp [loadAll, hc, hsegs]⟩

theorem setVolumeAll_eq (v : Rat) :
    ∀ segs : List Clip, setVolumeAll v segs =
      if segs.isEmpty then Except.ok [] else Except.error .processing
  | [] => rfl
  | _ :: _ => by simp [setVolumeAll, set_volume]

theorem scoreLoop_pure (tE aE : String → Emb) (simf : Emb → Emb → Int)
    (temb : Emb) : ∀ files : List String,
    scoreLoop (pureClap tE aE simf) temb files =
      (Except.ok (files.map fun f => (f, simf (aE f) temb)), files,
        files.length)
  | [] => by simp [scoreLoop]
  | f :: rest => by
    have ih := scoreLoop_pure tE aE simf temb rest
    simp only [pureClap] at ih
    simp [scoreLoop, pureClap, ih, Except.map]

theorem retrieve_audio_pure (tE aE : String → Emb) (simf : Emb → Emb → Int)
    (q : String) (files : List String) (n : Nat) :
    retrieve_audio (pureClap tE aE simf) q files n =
      (Except.ok
        ((((scoredPairs tE aE simf q files).insertionSort
          byScoreDesc).take n).map Prod.fst),
        ⟨[q], files, files.length⟩) := by
  have h := scoreLoop_pure tE aE simf (tE q) files
  simp only [pureClap] at h
  simp [retrieve_audio, pureClap, h, scoredPairs, scoreOf]

theorem scoredPairs_mem {tE aE : String → Emb} {simf : Emb → Emb → Int}
    {q : String} {files : List String} {p : String × Int}
    (hp : p ∈ scoredPairs tE aE simf q files) :
    p.1 ∈ files ∧ p.2 = scoreOf tE aE simf q p.1 := by
  obtain ⟨f, hf, rfl⟩ := List.mem_map.mp hp
  exact ⟨hf, rfl⟩

theorem mem_scoredPairs_of_mem {tE aE : String → Emb}
    {simf : Emb → Emb → Int} {q : String} {files : List String}
    {f : String} (hf : f ∈ files) :
    (f, scoreOf tE aE simf q f) ∈ scoredPairs tE aE simf q files :=
  List.mem_map_of_mem _ hf

/-!
## Claim theorems
-/

/-- C1 (code bug in `mix`/`mix_two`): pydub `+` on two segments is
concatenation, so `sum(audio_segments)` concatenates.  Mixing the
one-millisecond amplitude-5 clip `x.wav` with itself at volume 1.0 yields
the two-millisecond clip `[5, 5]` — amplitudes unchanged, duration doubled —
not the one-millisecond clip `[10]` of doubled amplitude that the claim
(and the functions' own docstrings, which promise mixing) describe. -/
theorem mix_concatenates_duplicate_clip :
    mix sampleFs ["x.wav", "x.wav"] 1 = Except.ok [5, 5] ∧
      mix_two sampleFs "x.wav" "x.wav" 1 = Except.ok [5, 5] :=
  ⟨rfl, rfl⟩

/-- C6: trimming a loaded clip of duration `D` with `start_time = 0` and
`trim_length = D` returns the whole clip unchanged — in particular the
output duration is again `D`. -/
theorem trim_full_length_identity (fs : String → Option Clip)
    (p : String) (a : Clip) (et : Option Nat) (h : fs p = some a) :
    trim fs p (some a.length) 0 et = some a := by
  simp [trim, h, pySlice]

/-- Witness for C6 at a concrete input: `a.wav` has duration 2 and trimming
with `start_time = 0, trim_length = 2` returns it unchanged. -/
theorem trim_full_length_identity_witness :
    trim sampleFs "a.wav" (some 2) 0 none = some [1, 2] :=
  trim_full_length_identity sampleFs "a.wav" [1, 2] none (by decide)

/-- C7: `concat` on two loaded clips `A` (duration `a`) and `B` (duration
`b`) produces `A ++ B` — `A`'s samples followed by `B`'s — of duration
`a + b`. -/
theorem concat_two_durations_add (fs : String → Option Clip)
    (pa pb : String) (A B : Clip)
    (ha : fs pa = some A) (hb : fs pb = some B) :
    concat fs [pa, pb] = some (A ++ B) ∧
      (A ++ B).length = A.length + B.length := by
  refine ⟨?_, List.length_append A B⟩
  simp [concat, loadAll, ha, hb, pydub_sum]

/-- Witness for C7 at a concrete input: concatenating `x.wav` (duration 1)
and `a.wav` (duration 2) yields `[5, 1, 2]` of duration 3. -/
theorem concat_two_durations_add_witness :
    concat sampleFs ["x.wav", "a.wav"] = some [5, 1, 2] ∧
      ([5, 1, 2] : Clip).length = 1 + 2 :=
  concat_two_durations_add sampleFs "x.wav" "a.wav" [5] [1, 2]
    (by decide) (by decide)

/-- C10: in `trim` only `end_time` is clamped to the source duration, never
`start_time`: with `trim_length` and `end_time` unspecified and
`start_time` beyond the duration, the call succeeds and saves the empty
clip of duration 0 instead of raising. -/
theorem trim_start_past_duration_empty (fs : String → Option Clip)
    (p : String) (a : Clip) (s : Nat) (h : fs p = some a)
    (hs : a.length < s) :
    trim fs p none s none = some [] := by
  simp only [trim, h, Option.getD, Nat.min_self, pySlice, List.take_length]
  exact congrArg some (List.drop_eq_nil_of_le (le_of_lt hs))

/-- Witness for C10 at a concrete input: `a.wav` has duration 2;
`trim` with `start_time = 5` and no `trim_length`/`end_time` saves the
empty clip. -/
theorem trim_start_past_duration_empty_witness :
    trim sampleFs "a.wav" none 5 none = some [] :=
  trim_start_past_duration_empty sampleFs "a.wav" [1, 2] 5
    (by decide) (by decide)

theorem scoreLoop_error_of_mem {m : Clap} {temb : Emb} {files : List String}
    {f : String} {me : ModelErr} (hf : f ∈ files)
    (herr : m.get_audio_embeddings f = .error me) :
    ∃ e, (scoreLoop m temb files).1 = Except.error e := by
  induction files with
  | nil => cases hf
  | cons g rest ih =>
    cases ha : m.get_audio_embeddings g with
    | error e => exact ⟨e, by simp [scoreLoop, ha]⟩
    | ok aemb =>
      have htail : f ∈ rest := by
        rcases List.mem_cons.mp hf with rfl | htail
        · rw [ha] at herr; cases herr
        · exact htail
      cases hs : m.compute_similarity aemb temb with
      | error e => exact ⟨e, by simp [scoreLoop, ha, hs]⟩
      | ok s =>
        obtain ⟨e, he⟩ := ih htail
        refine ⟨e, ?_⟩
        rcases hl : scoreLoop m temb rest with ⟨res, called, sims⟩
        rw [hl] at he
        simp only at he
        subst he
        simp [scoreLoop, ha, hs, hl, Except.map]

/-- C9: with any `volume ≠ 1.0`, both `mix` and `mix_two` never save an
output file: the call always raises, and whenever every input file loads
successfully the raised error is the generic processing error (the
`set_volume` scaling step — or, for an empty `mix` batch, exporting the
integer `sum([])` — fails); so volume scaling never succeeds at any setting
other than the default 1.0. -/
theorem nonunit_volume_always_errors (fs : String → Option Clip)
    (paths : List String) (p1 p2 : String) (v : Rat) (hv : v ≠ 1) :
    (∃ e, mix fs paths v = Except.error e) ∧
      ((∀ p ∈ paths, (fs p).isSome) →
        mix fs paths v = Except.error .processing) ∧
      (∃ e, mix_two fs p1 p2 v = Except.error e) ∧
      ((fs p1).isSome → (fs p2).isSome →
        mix_two fs p1 p2 v = Except.error .processing) := by
  have hmix : ∀ segs, loadAll fs paths = some segs →
      mix fs paths v = Except.error .processing := by
    intro segs hload
    cases segs with
    | nil => simp [mix, hload, hv, setVolumeAll, pydub_sum]
    | cons c rest => simp [mix, hload, hv, setVolumeAll_eq, pydub_sum]
  have hmix2 : ∀ c1 c2, fs p1 = some c1 → fs p2 = some c2 →
      mix_two fs p1 p2 v = Except.error .processing := by
    intro c1 c2 h1 h2
    simp [mix_two, h1, h2, hv, set_volume]
  refine ⟨?_, ?_, ?_, ?_⟩
  · cases hload : loadAll fs paths with
    | none => exact ⟨.fileNotFound, by simp [mix, hload]⟩
    | some segs => exact ⟨.processing, hmix segs hload⟩
  · intro hall
    obtain ⟨segs, hload⟩ := loadAll_isSome_of_forall hall
    exact hmix segs hload
  · cases h1 : fs p1 with
    | none => exact ⟨.fileNotFound, by simp [mix_two, h1]⟩
    | some c1 =>
      cases h2 : fs p2 with
      | none => exact ⟨.fileNotFound, by simp [mix_two, h1, h2]⟩
      | some c2 => exact ⟨.processing, hmix2 c1 c2 h1 h2⟩
  · intro hs1 hs2
    obtain ⟨c1, h1⟩ := Option.isSome_iff_exists.mp hs1
    obtain ⟨c2, h2⟩ := Option.isSome_iff_exists.mp hs2
    exact hmix2 c1 c2 h1 h2

/-- Witness for C9 at a concrete input: volume one half on existing files
yields the generic processing error from both `mix` and `mix_two`. -/
theorem nonunit_volume_always_errors_witness :
    (∃ e, mix sampleFs ["x.wav"] (1 / 2) = Except.error e) ∧
      ((∀ p ∈ ["x.wav"], (sampleFs p).isSome) →
        mix sampleFs ["x.wav"] (1 / 2) = Except.error .processing) ∧
      (∃ e, mix_two sampleFs "x.wav" "a.wav" (1 / 2) = Except.error e) ∧
      ((sampleFs "x.wav").isSome → (sampleFs "a.wav").isSome →
        mix_two sampleFs "x.wav" "a.wav" (1 / 2) =
          Except.error .processing) :=
  nonunit_volume_always_errors sampleFs ["x.wav"] "x.wav" "a.wav" (1 / 2)
    (by norm_num)

/-- C8: batch operations return no partial result.  If some input of `mix`
fails to load, `mix` raises and writes no output file; if the audio
embedding of some candidate of `retrieve_audio` raises, `retrieve_audio`
propagates the exception and returns no ranking. -/
theorem batch_failure_yields_no_result (fs : String → Option Clip)
    (paths : List String) (v : Rat) (p : String) (m : Clap) (q : String)
    (files : List String) (n : Nat) (f : String) (me : ModelErr) :
    (p ∈ paths → fs p = none → ∃ e, mix fs paths v = Except.error e) ∧
      (f ∈ files → m.get_audio_embeddings f = .error me →
        ∃ e, (retrieve_audio m q files n).1 = Except.error e) := by
  constructor
  · intro hp hnone
    exact ⟨.fileNotFound, by simp [mix, loadAll_eq_none_of_mem hp hnone]⟩
  · intro hf herr
    cases ht : m.get_text_embeddings q with
    | error e => exact ⟨e, by simp [retrieve_audio, ht]⟩
    | ok temb =>
      obtain ⟨e, he⟩ := @scoreLoop_error_of_mem m temb files f me hf herr
      refine ⟨e, ?_⟩
      rcases hl : scoreLoop m temb files with ⟨res, called, sims⟩
      rw [hl] at he
      simp only at he
      subst he
      simp [retrieve_audio, ht, hl]

/-- Witness for C8 at concrete inputs: a missing file aborts `mix`, and a
failing audio-embedding call aborts `retrieve_audio`. -/
theorem batch_failure_yields_no_result_witness :
    (∃ e, mix sampleFs ["missing.wav"] 1 = Except.error e) ∧
      (∃ e, (retrieve_audio failingClap "a query" ["f.wav"] 5).1 =
        Except.error e) :=
  ⟨(batch_failure_yields_no_result sampleFs ["missing.wav"] 1 "missing.wav"
      failingClap "a query" ["f.wav"] 5 "f.wav" .failure).1
      (by decide) (by decide),
    (batch_failure_yields_no_result sampleFs ["missing.wav"] 1 "missing.wav"
      failingClap "a query" ["f.wav"] 5 "f.wav" .failure).2
      (by decide) rfl⟩

/-- C5: one `retrieve_audio` call over `N` candidate files invokes the
model exactly once on the query text, exactly once per candidate file for
the audio embedding (in enumeration order, so no caching or batching), and
exactly once per candidate for the similarity score — `N` audio-embedding
calls and `N` similarity calls in total. -/
theorem retrieve_model_call_log (tE aE : String → Emb)
    (simf : Emb → Emb → Int) (q : String) (files : List String)
    (top_n : Nat) :
    (retrieve_audio (pureClap tE aE simf) q files top_n).2 =
      ⟨[q], files, files.length⟩ := by
  rw [retrieve_audio_pure]

/-- C2: with `0 < top_n < N`, `retrieve_audio` returns exactly `top_n`
file identifiers, and the score of every returned file is at least the
score of every file not returned. -/
theorem retrieve_topn_exact_and_scores_dominate (tE aE : String → Emb)
    (simf : Emb → Emb → Int) (q : String) (files : List String)
    (top_n : Nat) (hpos : 0 < top_n) (hlt : top_n < files.length) :
    ∃ res, (retrieve_audio (pureClap tE aE simf) q files top_n).1 =
        Except.ok res ∧
      res.length = top_n ∧
      ∀ f ∈ res, ∀ g ∈ files, g ∉ res →
        scoreOf tE aE simf q g ≤ scoreOf tE aE simf q f := by
  set sp := scoredPairs tE aE simf q files with hsp
  set R := sp.insertionSort byScoreDesc with hR
  have hperm : R.Perm sp := List.perm_insertionSort byScoreDesc sp
  refine ⟨(R.take top_n).map Prod.fst, ?_, ?_, ?_⟩
  · rw [retrieve_audio_pure]
  · rw [List.length_map, List.length_take, List.length_insertionSort]
    have : sp.length = files.length := List.length_map files _
    rw [this]
    exact Nat.min_eq_left (le_of_lt hlt)
  · intro f hf g hg hgnot
    obtain ⟨pf, hpf_take, hpf_fst⟩ := List.mem_map.mp hf
    have hpfR : pf ∈ R := List.take_subset top_n R hpf_take
    obtain ⟨hpf_files, hpf_snd⟩ := scoredPairs_mem (hperm.mem_iff.mp hpfR)
    have hg_sp : (g, scoreOf tE aE simf q g) ∈ sp := mem_scoredPairs_of_mem hg
    have hgR : (g, scoreOf tE aE simf q g) ∈ R := hperm.mem_iff.mpr hg_sp
    have hg_drop : (g, scoreOf tE aE simf q g) ∈ R.drop top_n := by
      have hsplit : (g, scoreOf tE aE simf q g) ∈ R.take top_n ++ R.drop top_n := by
        rw [List.take_append_drop]; exact hgR
      rcases List.mem_append.mp hsplit with htk | hdp
      · exact absurd (List.mem_map_of_mem Prod.fst htk) hgnot
      · exact hdp
    have hsorted : List.Pairwise byScoreDesc (R.take top_n ++ R.drop top_n) := by
      rw [List.take_append_drop]
      exact List.sorted_insertionSort byScoreDesc sp
    have hrel : byScoreDesc pf (g, scoreOf tE aE simf q g) :=
      (List.pairwise_append.mp hsorted).2.2 pf hpf_take _ hg_drop
    have : scoreOf tE aE simf q g ≤ pf.2 := hrel
    rw [hpf_snd, hpf_fst] at this
    exact this

/-- Witness for C2 at a concrete input: two candidate files scored by a
constant model with `top_n = 1`. -/
theorem retrieve_topn_exact_and_scores_dominate_witness :
    ∃ res, (retrieve_audio
        (pureClap (fun _ => ([] : Emb)) (fun _ => ([] : Emb))
          (fun _ _ => (0 : Int)))
        "a query" ["a.wav", "b.wav"] 1).1 = Except.ok res ∧
      res.length = 1 ∧
      ∀ f ∈ res, ∀ g ∈ ["a.wav", "b.wav"], g ∉ res →
        scoreOf (fun _ => ([] : Emb)) (fun _ => ([] : Emb))
            (fun _ _ => (0 : Int)) "a query" g ≤
          scoreOf (fun _ => ([] : Emb)) (fun _ => ([] : Emb))
            (fun _ _ => (0 : Int)) "a query" f :=
  retrieve_topn_exact_and_scores_dominate _ _ _ _ _ _
    (by decide) (by decide)

/-- C3: for `N` candidate files and positive `top_n` the result has length
`min top_n N` (never padded); an empty corpus folder yields the empty
sequence regardless of `top_n`; and when `top_n ≥ N` the result is all `N`
identifiers, sorted by descending score. -/
theorem retrieve_length_min_and_no_padding (tE aE : String → Emb)
    (simf : Emb → Emb → Int) (q folder : String) (files : List String)
    (top_n : Nat) (hpos : 0 < top_n) :
    ∃ res, (retrieve_audio (pureClap tE aE simf) q files top_n).1 =
        Except.ok res ∧
      res.length = min top_n files.length ∧
      (retrieve_audio (pureClap tE aE simf) q (listWavFiles folder [])
        top_n).1 = Except.ok [] ∧
      (files.length ≤ top_n → res.Perm files ∧
        (res.map (scoreOf tE aE simf q)).Sorted (fun a b : Int => b ≤ a)) := by
  clear hpos
  set sp := scoredPairs tE aE simf q files with hsp
  set R := sp.insertionSort byScoreDesc with hR
  have hperm : R.Perm sp := List.perm_insertionSort byScoreDesc sp
  have hRlen : R.length = files.length := by
    rw [List.length_insertionSort]
    exact List.length_map files _
  refine ⟨(R.take top_n).map Prod.fst, ?_, ?_, ?_, ?_⟩
  · rw [retrieve_audio_pure]
  · rw [List.length_map, List.length_take, hRlen]
  · rw [retrieve_audio_pure]
    simp [listWavFiles, scoredPairs]
  · intro hle
    have htake : R.take top_n = R :=
      List.take_of_length_le (by rw [hRlen]; exact hle)
    constructor
    · rw [htake]
      have hmap := hperm.map Prod.fst
      have hfst : sp.map Prod.fst = files := by
        simp [hsp, scoredPairs, Function.comp_def]
      rw [hfst] at hmap
      exact hmap
    · rw [htake, List.map_map]
      have hsorted : List.Pairwise byScoreDesc R :=
        List.sorted_insertionSort byScoreDesc sp
      have hsnd : ∀ p ∈ R, p.2 = scoreOf tE aE simf q p.1 := fun p hp =>
        (scoredPairs_mem (hperm.mem_iff.mp hp)).2
      have h2 : List.Pairwise (fun p p' : String × Int =>
          scoreOf tE aE simf q p'.1 ≤ scoreOf tE aE simf q p.1) R := by
        refine hsorted.imp_of_mem ?_
        intro a b ha hb hab
        rw [← hsnd a ha, ← hsnd b hb]
        exact hab
      show List.Pairwise _ _
      rw [List.pairwise_map]
      exact h2

/-- Witness for C3 at a concrete input: two candidate files scored by a
constant model with `top_n = 5 > N = 2`, plus the empty folder. -/
theorem retrieve_length_min_and_no_padding_witness :
    ∃ res, (retrieve_audio
        (pureClap (fun _ => ([] : Emb)) (fun _ => ([] : Emb))
          (fun _ _ => (0 : Int)))
        "a query" ["a.wav", "b.wav"] 5).1 = Except.ok res ∧
      res.length = min 5 (["a.wav", "b.wav"] : List String).length ∧
      (retrieve_audio
        (pureClap (fun _ => ([] : Emb)) (fun _ => ([] : Emb))
          (fun _ _ => (0 : Int)))
        "a query" (listWavFiles "corpus" []) 5).1 = Except.ok [] ∧
      ((["a.wav", "b.wav"] : List String).length ≤ 5 →
        res.Perm ["a.wav", "b.wav"] ∧
        (res.map (scoreOf (fun _ => ([] : Emb)) (fun _ => ([] : Emb))
          (fun _ _ => (0 : Int)) "a query")).Sorted
            (fun a b : Int => b ≤ a)) :=
  retrieve_length_min_and_no_padding _ _ _ "a query" "corpus"
    ["a.wav", "b.wav"] 5 (by decide)

/-- C4: the descending sort of `retrieve_audio` is stable with respect to
enumeration order: whenever candidates `f` and `g` — `f` enumerated before
`g` — receive equal scores, `f` precedes `g` in the full ranked sequence,
of which the returned value is the `top_n`-prefix. -/
theorem retrieve_equal_scores_keep_order (tE aE : String → Emb)
    (simf : Emb → Emb → Int) (q : String) (files : List String)
    (top_n : Nat) (f g : String) (hsub : [f, g].Sublist files)
    (heq : scoreOf tE aE simf q f = scoreOf tE aE simf q g) :
    ∃ R, (retrieve_audio (pureClap tE aE simf) q files top_n).1 =
        Except.ok (R.take top_n) ∧ [f, g].Sublist R := by
  refine ⟨((scoredPairs tE aE simf q files).insertionSort
    byScoreDesc).map Prod.fst, ?_, ?_⟩
  · rw [retrieve_audio_pure, List.map_take]
  · have h1 : [(f, scoreOf tE aE simf q f),
        (g, scoreOf tE aE simf q g)].Sublist
        (scoredPairs tE aE simf q files) := by
      have h := hsub.map (fun x => (x, scoreOf tE aE simf q x))
      simpa [scoredPairs] using h
    have hrel : byScoreDesc (f, scoreOf tE aE simf q f)
        (g, scoreOf tE aE simf q g) := by
      simpa [byScoreDesc] using le_of_eq heq.symm
    have h2 := List.pair_sublist_insertionSort hrel h1
    have h3 := h2.map Prod.fst
    simpa using h3

/-- Witness for C4 at a concrete input: two files with equal scores under a
constant model keep their enumeration order in the ranked sequence. -/
theorem retrieve_equal_scores_keep_order_witness :
    ∃ R, (retrieve_audio
        (pureClap (fun _ => ([] : Emb)) (fun _ => ([] : Emb))
          (fun _ _ => (0 : Int)))
        "a query" ["b.wav", "a.wav"] 1).1 = Except.ok (R.take 1) ∧
      ["b.wav", "a.wav"].Sublist R :=
  retrieve_equal_scores_keep_order _ _ _ "a query" ["b.wav", "a.wav"] 1
    "b.wav" "a.wav" (List.Sublist.refl _) rfl
